import Mathlib

/-!
# Verification of the ink! off-chain host-runtime emulator

A shallow embedding of the engine crate (`crates/engine/src/ext.rs`,
`crates/engine/src/storage.rs`, `crates/engine/src/exec_context.rs`) and of
the typed marshalling backend
(`crates/env/src/engine/experimental_off_chain/impls.rs`), together with
proofs of the testable properties stated in the specification.

Modelling conventions:
* bytes are `Nat` values (meaningful byte strings have all entries `< 256`;
  every byte-producing definition below only emits values `< 256`);
* `u128` balances are `Nat` with arithmetic taken modulo `2 ^ 128`
  (two's-complement wrapping, the release-build semantics of the Rust
  source);
* Rust panics (`panic!`, `unimplemented!`, `expect`, `assert_eq!`, slice
  range errors) are reified as a `Panic` value propagated through an
  `Outcome` sum type — an unwinding panic is a terminal outcome delivered to
  the caller of the emulated execution, not a process abort;
* the thread-local singletons `EnvInstance` and `RecInstance` become an
  explicit `Engine` record threaded through the host functions.
-/

namespace InkEngine

/-! ## Binary codec (SCALE), consumed from the external `scale` collaborator -/

/-- Little-endian serialization of `n` into exactly `k` bytes
(`scale::Encode` for fixed-width integers). Every produced byte is `< 256`. -/
def toLE : Nat → Nat → List Nat
  | 0, _ => []
  | k + 1, n => n % 256 :: toLE k (n / 256)

/-- Little-endian deserialization of a byte list into a `Nat`. -/
def fromLE : List Nat → Nat
  | [] => 0
  | b :: bs => b + 256 * fromLE bs

/-- SCALE encoding of a `u128` value: 16 bytes little-endian. -/
def encodeU128 (n : Nat) : List Nat :=
  toLE 16 n

/-- SCALE decoding of a `u128` from a byte stream: reads the first 16 bytes
little-endian, fails when fewer than 16 bytes are available; trailing bytes
are ignored (as `scale::Decode::decode` leaves them in the input). -/
def decodeU128 (bytes : List Nat) : Option Nat :=
  if 16 ≤ bytes.length then some (fromLE (bytes.take 16)) else none

/-- SCALE compact encoding of an unsigned integer (`scale::Compact`):
mode `00` single byte for `n < 2^6`, mode `01` two bytes for `n < 2^14`,
mode `10` four bytes for `n < 2^30`, mode `11` big-integer otherwise. -/
def compactEncode (n : Nat) : List Nat :=
  if n < 2 ^ 6 then [n * 4]
  else if n < 2 ^ 14 then toLE 2 (n * 4 + 1)
  else if n < 2 ^ 30 then toLE 4 (n * 4 + 2)
  else
    let rec bytesOf : Nat → Nat → List Nat
      | 0, _ => []
      | fuel + 1, m => if m = 0 then [] else m % 256 :: bytesOf fuel (m / 256)
    let bs := bytesOf 17 n
    ((bs.length - 4) * 4 + 3) :: bs

/-- SCALE compact decoding of a `Compact<u32>` from a single-byte slice, as
`deposit_event` performs on `&topics[0..1]`: only mode `00` can complete
within one byte; the other modes need more input and fail. -/
def compactDecodeOneByte (b : Nat) : Option Nat :=
  if b % 4 = 0 then some (b / 4) else none

/-- SCALE encoding of a `Vec<u8>`: compact length followed by the bytes. -/
def encodeVecU8 (v : List Nat) : List Nat :=
  compactEncode v.length ++ v

/-- Wrapping `u128` addition (release-build semantics of `+` on `u128`). -/
def add128 (x y : Nat) : Nat :=
  (x + y) % 2 ^ 128

/-- Wrapping `u128` subtraction (release-build semantics of `-` on `u128`). -/
def sub128 (x y : Nat) : Nat :=
  (x % 2 ^ 128 + (2 ^ 128 - y % 2 ^ 128)) % 2 ^ 128

/-! ## Hashing module

Modelled from the spec: the `hashing` module of the engine crate is not part
of the provided sources (only its callers are); per the spec it provides
"deterministic cryptographic digests (two hash widths of one algorithm
family)" — the BLAKE2b family named by the callers (`blake2b_256`). The
definitions below are the standard BLAKE2b algorithm (RFC 7693),
unkeyed, over byte lists. -/

/-- 64-bit right rotation. -/
def rotr64 (x n : Nat) : Nat :=
  x / 2 ^ n + x % 2 ^ n * 2 ^ (64 - n)

/-- BLAKE2b initialization vector. -/
def BLAKE2B_IV : List Nat :=
  [0x6a09e667f3bcc908, 0xbb67ae8584caa73b, 0x3c6ef372fe94f82b,
   0xa54ff53a5f1d36f1, 0x510e527fade682d1, 0x9b05688c2b3e6c1f,
   0x1f83d9abfb41bd6b, 0x5be0cd19137e2179]

/-- BLAKE2b message schedule permutations. -/
def BLAKE2B_SIGMA : List (List Nat) :=
  [[0, 1, 2, 3, 4, 5, 6, 7, 8, 9, 10, 11, 12, 13, 14, 15],
   [14, 10, 4, 8, 9, 15, 13, 6, 1, 12, 0, 2, 11, 7, 5, 3],
   [11, 8, 12, 0, 5, 2, 15, 13, 10, 14, 3, 6, 7, 1, 9, 4],
   [7, 9, 3, 1, 13, 12, 11, 14, 2, 6, 5, 10, 4, 0, 15, 8],
   [9, 0, 5, 7, 2, 4, 10, 15, 14, 1, 11, 12, 6, 8, 3, 13],
   [2, 12, 6, 10, 0, 11, 8, 3, 4, 13, 7, 5, 15, 14, 1, 9],
   [12, 5, 1, 15, 14, 13, 4, 10, 0, 7, 6, 3, 9, 2, 8, 11],
   [13, 11, 7, 14, 12, 1, 3, 9, 5, 0, 15, 4, 8, 6, 2, 10],
   [6, 15, 14, 9, 11, 3, 0, 8, 12, 2, 13, 7, 1, 4, 10, 5],
   [10, 2, 8, 4, 7, 6, 1, 5, 15, 11, 9, 14, 3, 12, 13, 0]]

/-- The BLAKE2b `G` mixing function on the 16-word working vector. -/
def blake2bG (v : List Nat) (a b c d x y : Nat) : List Nat :=
  let va := (v.getD a 0 + v.getD b 0 + x) % 2 ^ 64
  let vd := rotr64 (Nat.xor (v.getD d 0) va) 32
  let vc := (v.getD c 0 + vd) % 2 ^ 64
  let vb := rotr64 (Nat.xor (v.getD b 0) vc) 24
  let va2 := (va + vb + y) % 2 ^ 64
  let vd2 := rotr64 (Nat.xor vd va2) 16
  let vc2 := (vc + vd2) % 2 ^ 64
  let vb2 := rotr64 (Nat.xor vb vc2) 63
  (((v.set a va2).set b vb2).set c vc2).set d vd2

/-- One BLAKE2b round: four column mixes and four diagonal mixes, message
words selected by the round's sigma permutation `s`. -/
def blake2bRound (m v s : List Nat) : List Nat :=
  let mw := fun i => m.getD (s.getD i 0) 0
  let v := blake2bG v 0 4 8 12 (mw 0) (mw 1)
  let v := blake2bG v 1 5 9 13 (mw 2) (mw 3)
  let v := blake2bG v 2 6 10 14 (mw 4) (mw 5)
  let v := blake2bG v 3 7 11 15 (mw 6) (mw 7)
  let v := blake2bG v 0 5 10 15 (mw 8) (mw 9)
  let v := blake2bG v 1 6 11 12 (mw 10) (mw 11)
  let v := blake2bG v 2 7 8 13 (mw 12) (mw 13)
  let v := blake2bG v 3 4 9 14 (mw 14) (mw 15)
  v

/-- A 128-byte message block as 16 little-endian 64-bit words. -/
def wordsOfBlock (block : List Nat) : List Nat :=
  (List.range 16).map fun i => fromLE ((block.drop (8 * i)).take 8)

/-- The BLAKE2b compression function `F(h, m, t, f)`: twelve rounds over the
working vector, then feed-forward into the state. -/
def blake2bCompress (h : List Nat) (m : List Nat) (t : Nat) (last : Bool) :
    List Nat :=
  let v := h ++ BLAKE2B_IV
  let v := v.set 12 (Nat.xor (v.getD 12 0) (t % 2 ^ 64))
  let v := v.set 13 (Nat.xor (v.getD 13 0) (t / 2 ^ 64 % 2 ^ 64))
  let v := if last then v.set 14 (Nat.xor (v.getD 14 0) (2 ^ 64 - 1)) else v
  let v := (List.range 12).foldl
    (fun v r => blake2bRound m v (BLAKE2B_SIGMA.getD (r % 10) [])) v
  (List.range 8).map fun i =>
    Nat.xor (Nat.xor (h.getD i 0) (v.getD i 0)) (v.getD (i + 8) 0)

/-- Absorb all full non-final blocks. Fuel-based structural recursion (one
unit of fuel per input byte is plainly sufficient since every step consumes
128 bytes) so that the kernel can evaluate the definition. -/
def blake2bAbsorb : Nat → List Nat → Nat → List Nat → List Nat × Nat × List Nat
  | 0, h, t, rest => (h, t, rest)
  | fuel + 1, h, t, rest =>
    if 128 < rest.length then
      blake2bAbsorb fuel
        (blake2bCompress h (wordsOfBlock (rest.take 128)) (t + 128) false)
        (t + 128) (rest.drop 128)
    else
      (h, t, rest)

/-- BLAKE2b with a digest of `outLen` bytes (unkeyed): parameter-block XOR
into the IV, absorb full blocks, compress the zero-padded final block with
the total byte count and the final flag, then serialize the state words
little-endian and truncate. -/
def blake2b (outLen : Nat) (input : List Nat) : List Nat :=
  let h0 := BLAKE2B_IV.set 0 (Nat.xor (BLAKE2B_IV.getD 0 0) (0x01010000 + outLen))
  let acc := blake2bAbsorb input.length h0 0 input
  let rest := acc.2.2
  let lastBlock := rest ++ List.replicate (128 - rest.length) 0
  let hf := blake2bCompress acc.1 (wordsOfBlock lastBlock) (acc.2.1 + rest.length) true
  (hf.flatMap (toLE 8)).take outLen

/-- `hashing::blake2b_256`: the 32-byte-digest instance used for storage-key
derivation and topic compression. -/
def blake2b_256 (input : List Nat) : List Nat :=
  blake2b 32 input

/-! ## Storage engine key derivation (`crates/engine/src/storage.rs`) -/

/-- The fixed namespace prefix for balance slots: the byte string
`b"balance:"`. -/
def BALANCE_OF : List Nat :=
  [98, 97, 108, 97, 110, 99, 101, 58]

/-- `scale::KeyedVec::to_keyed_vec` for a `Vec<u8>`: the prepend key followed
by the SCALE encoding of the vector (compact length prefix, then bytes). -/
def toKeyedVec (v : List Nat) (prependKey : List Nat) : List Nat :=
  prependKey ++ encodeVecU8 v

/-- `storage::balance_of_key`: the storage key under which to find the
balance for account `who`. -/
def balance_of_key (who : List Nat) : List Nat :=
  blake2b_256 (toKeyedVec who BALANCE_OF)

/-! ## Error codes (`crates/engine/src/ext.rs`, `define_error_codes!`) -/

/-- Every error that can be returned to a contract when it calls any of the
host functions (`ext::Error`). -/
inductive Error where
  | CalleeTrapped
  | CalleeReverted
  | KeyNotFound
  | BelowSubsistenceThreshold
  | TransferFailed
  | NewContractNotFunded
  | CodeNotFound
  | NotCallable
  | UnknownError
  deriving DecidableEq, Repr

/-- `impl From<ReturnCode> for Result`: the raw `u32` status of a host call
translated through the fixed error table. -/
def resultFromReturnCode (code : Nat) : Except Error Unit :=
  match code with
  | 0 => .ok ()
  | 1 => .error .CalleeTrapped
  | 2 => .error .CalleeReverted
  | 3 => .error .KeyNotFound
  | 4 => .error .BelowSubsistenceThreshold
  | 5 => .error .TransferFailed
  | 6 => .error .NewContractNotFunded
  | 7 => .error .CodeNotFound
  | 8 => .error .NotCallable
  | _ => .error .UnknownError

/-! ## Panics and host-call outcomes -/

/-- A Rust panic, reified. The constructors record which panicking construct
fired: `unimplementedPanic` for `unimplemented!` (message carries Rust's
"not implemented: " prefix), `runtimePanic` for language-level panics (slice
range errors, zero chunk size), `expectPanic` for `Option/Result::expect`,
`assertPanic` for `assert_eq!`, and `explicitPanic` for `terminate`'s
deliberate `panic!` whose message is the Debug rendering of the SCALE-encoded
`(amount, beneficiary)` payload carried here as bytes. -/
inductive Panic where
  | unimplementedPanic (msg : String)
  | runtimePanic (msg : String)
  | expectPanic (msg : String)
  | assertPanic (msg : String)
  | explicitPanic (payload : List Nat)
  deriving DecidableEq, Repr

/-- Outcome of a host-surface call: a normal return, an ABI `Err` from the
fixed error table, or an unwinding panic propagated to the caller of the
emulated execution. -/
inductive Outcome (α : Type) where
  | ok (value : α)
  | err (e : Error)
  | panicked (p : Panic)
  deriving DecidableEq, Repr

/-! ## Emulated state -/

/-- `exec_context::ExecContext`: the context of a contract execution. -/
structure ExecContext where
  caller : List Nat
  callee : List Nat
  value_transferred : Nat
  deriving Repr

/-- `ext::EnvInstance`: storage, balances and the current execution context.
The two hash maps are modelled as functions into `Option`. -/
structure EnvInstance where
  storage : List Nat → Option (List Nat)
  balances : List Nat → Option Nat
  exec_context : ExecContext

/-- `test_api::EmittedEvent`: topics and data of a recorded event. -/
structure EmittedEvent where
  topics : List (List Nat)
  data : List Nat
  deriving DecidableEq, Repr

/-- Modelled from the spec: `test_api::RecInstance` (not part of the provided
sources; §4.3 of the spec describes it) — append-only logs of emitted events
and printed diagnostics, plus per-account read/write/live-cell counters. -/
structure RecInstance where
  emitted_events : List EmittedEvent
  recorded_printlns : List String
  count_reads : List Nat → Nat
  count_writes : List Nat → Nat
  count_cells : List Nat → Nat

/-- The complete emulated state: the two thread-local singletons of the
source, made explicit. -/
structure Engine where
  env : EnvInstance
  recorder : RecInstance

/-- Pointwise update of a function-modelled hash map. -/
def mapSet {V : Type} (m : List Nat → Option V) (k : List Nat) (v : V) :
    List Nat → Option V :=
  fun q => if q = k then some v else m q

/-- Pointwise removal from a function-modelled hash map. -/
def mapRemove {V : Type} (m : List Nat → Option V) (k : List Nat) :
    List Nat → Option V :=
  fun q => if q = k then none else m q

/-- Pointwise update of a counter map. -/
def countSet (m : List Nat → Nat) (k : List Nat) (v : Nat) : List Nat → Nat :=
  fun q => if q = k then v else m q

/-! ## Modelled `test_api` accessors

Modelled from the spec: the `test_api` module is not part of the provided
sources (only its callers in `ext.rs` are). Per the spec (§3, §4.3) it
exposes the balance table of `EnvInstance`, the callee of the execution
context, and the append-only recorder logs. -/

/-- Modelled from the spec: `test_api::get_balance` — the balance of
`account`, absent when the account has no balance-table entry. -/
def get_balance (e : Engine) (account : List Nat) : Option Nat :=
  e.env.balances account

/-- Modelled from the spec: `test_api::set_balance` — overwrite the balance
of `account` in place. -/
def set_balance (e : Engine) (account : List Nat) (b : Nat) : Engine :=
  { e with env := { e.env with balances := mapSet e.env.balances account b } }

/-- Modelled from the spec: `test_api::get_callee` — the currently executing
account from the execution context. -/
def get_callee (e : Engine) : List Nat :=
  e.env.exec_context.callee

/-- Test-side setter for the callee (mirrors `Engine::set_callee` used by the
repository's tests). -/
def set_callee (e : Engine) (callee : List Nat) : Engine :=
  { e with env :=
      { e.env with exec_context := { e.env.exec_context with callee := callee } } }

/-- Modelled from the spec: `RecInstance::record_event` — pure append,
preserving insertion order. -/
def record_event (e : Engine) (event : EmittedEvent) : Engine :=
  { e with recorder :=
      { e.recorder with
        emitted_events := e.recorder.emitted_events ++ [event] } }

/-- Modelled from the spec: `RecInstance::record_println` — pure append. -/
def record_println (e : Engine) (content : String) : Engine :=
  { e with recorder :=
      { e.recorder with
        recorded_printlns := e.recorder.recorded_printlns ++ [content] } }

/-- Modelled from the spec: `RecInstance::inc_reads`. -/
def inc_reads (e : Engine) (account : List Nat) : Engine :=
  let m := countSet e.recorder.count_reads account (e.recorder.count_reads account + 1)
  { e with recorder := { e.recorder with count_reads := m } }

/-- Modelled from the spec: `RecInstance::inc_writes`. -/
def inc_writes (e : Engine) (account : List Nat) : Engine :=
  let m := countSet e.recorder.count_writes account (e.recorder.count_writes account + 1)
  { e with recorder := { e.recorder with count_writes := m } }

/-- Modelled from the spec: `RecInstance::inc_cells_per_account`. -/
def inc_cells_per_account (e : Engine) (account : List Nat) : Engine :=
  let m := countSet e.recorder.count_cells account (e.recorder.count_cells account + 1)
  { e with recorder := { e.recorder with count_cells := m } }

/-- Modelled from the spec: `RecInstance::dec_cells_per_account` (truncated
decrement at zero). -/
def dec_cells_per_account (e : Engine) (account : List Nat) : Engine :=
  let m := countSet e.recorder.count_cells account (e.recorder.count_cells account - 1)
  { e with recorder := { e.recorder with count_cells := m } }

/-! ## Host function surface (`crates/engine/src/ext.rs`) -/

/-- `ext::transfer`: transfers value from the contract to the destination
account. Decodes the amount (`TransferFailed` on malformed input), reads the
destination's old balance (defaulting to zero when the destination does not
exist), reads the executing contract's balance (`TransferFailed` when
absent), then debits the contract and credits the destination — in that
order, so a self-transfer's credit overwrites the debit. -/
def transfer (e : Engine) (account_id value : List Nat) : Except Error Engine :=
  match decodeU128 value with
  | none => .error .TransferFailed
  | some increment =>
    let dest := account_id
    let dest_old_balance := (get_balance e dest).getD 0
    let contract := get_callee e
    match get_balance e contract with
    | none => .error .TransferFailed
    | some contract_old_balance =>
      let e1 := set_balance e contract (sub128 contract_old_balance increment)
      let e2 := set_balance e1 dest (add128 dest_old_balance increment)
      .ok e2

/-- Rust's `slice::chunks`, by fuel-based structural recursion (one unit of
fuel per element suffices whenever the chunk size `k` is positive). -/
def chunksAux : Nat → Nat → List Nat → List (List Nat)
  | 0, _, _ => []
  | fuel + 1, k, l =>
    match l with
    | [] => []
    | x :: xs => ((x :: xs).take k) :: chunksAux fuel k ((x :: xs).drop k)

/-- `topics.chunks(bytes_per_topic)` collected into a vector of chunks; the
final chunk is shorter when the length is not divisible. -/
def chunksOf (k : Nat) (l : List Nat) : List (List Nat) :=
  chunksAux l.length k l

/-- `ext::deposit_event`: decodes the leading compact topic count from the
first byte of the topic buffer (panicking on a slice of length zero or an
incomplete compact integer), splits the remainder into `topics_count` chunks
of `remaining / topics_count` bytes (Rust panics on a zero chunk size, and
the `assert_eq!` rejects a chunk count mismatch), then records the event. -/
def deposit_event (e : Engine) (topics data : List Nat) : Outcome Engine :=
  match topics with
  | [] => .panicked (.runtimePanic "range end index 1 out of range for slice")
  | b :: rest =>
    match compactDecodeOneByte b with
    | none => .panicked (.expectPanic "decoding number of topics failed")
    | some topics_count =>
      if topics_count = 0 then
        .ok (record_event e { topics := [], data := data })
      else
        let bytes_per_topic := rest.length / topics_count
        if bytes_per_topic = 0 then
          .panicked (.runtimePanic "chunk size must be non-zero")
        else
          let topics_vec := chunksOf bytes_per_topic rest
          if topics_vec.length = topics_count then
            .ok (record_event e { topics := topics_vec, data := data })
          else
            .panicked (.assertPanic "assertion failed: topics_count equals topics_vec.len")

/-- `ext::set_storage`: bumps the per-account write and live-cell counters of
the executing account, then inserts (overwriting any previous value). -/
def set_storage (e : Engine) (key encoded_value : List Nat) : Engine :=
  let e1 := inc_cells_per_account (inc_writes e (get_callee e)) (get_callee e)
  { e1 with env :=
      { e1.env with storage := mapSet e1.env.storage key encoded_value } }

/-- `ext::clear_storage`: bumps the write counter, decrements the live-cell
counter, then removes the key (no error when absent). -/
def clear_storage (e : Engine) (key : List Nat) : Engine :=
  let e1 := dec_cells_per_account (inc_writes e (get_callee e)) (get_callee e)
  { e1 with env := { e1.env with storage := mapRemove e1.env.storage key } }

/-- `ext::get_storage`: bumps the read counter, then on a hit copies the
value into the prefix of the caller's output buffer (a Rust slice-index panic
when the value exceeds the buffer) and on a miss fails with `KeyNotFound`. -/
def get_storage (e : Engine) (key output : List Nat) :
    Engine × Outcome (List Nat) :=
  let e1 := inc_reads e (get_callee e)
  match e1.env.storage key with
  | some val =>
    if val.length ≤ output.length then
      (e1, .ok (val ++ output.drop val.length))
    else
      (e1, .panicked (.runtimePanic "range end index out of range for slice"))
  | none => (e1, .err .KeyNotFound)

/-- `ext::terminate`: sends the entire remaining balance of the executing
contract to the beneficiary, then ends the execution by panicking with the
SCALE encoding of `(amount, beneficiary)`. The Rust signature is `-> !`: the
return type here has no normal-completion alternative — the outcome is
always a `Panic`, paired with the state as mutated before unwinding. -/
def terminate (e : Engine) (beneficiary : List Nat) : Engine × Panic :=
  let contract := get_callee e
  match get_balance e contract with
  | none => (e, .expectPanic "could not get balance")
  | some all =>
    let value := encodeU128 all
    match transfer e beneficiary value with
    | .error _ => (e, .expectPanic "transfer did not work")
    | .ok e2 => (e2, .explicitPanic (encodeU128 all ++ encodeVecU8 beneficiary))

/-! ## Unsupported host functions (`crates/engine/src/ext.rs`)

Each body is a single `unimplemented!`, i.e. a panic whose message carries
Rust's fixed "not implemented: " prefix and the function-specific
"off-chain environment does not yet support" text — an explicit signal on
the panic channel, distinct by construction from the `Error` table and from
any successful return. -/

/-- `ext::now`. -/
def now (_output : List Nat) : Outcome (List Nat) :=
  .panicked (.unimplementedPanic
    "not implemented: off-chain environment does not yet support `now`")

/-- `ext::block_number`. -/
def block_number (_output : List Nat) : Outcome (List Nat) :=
  .panicked (.unimplementedPanic
    "not implemented: off-chain environment does not yet support `block_number`")

/-- `ext::gas_left`. -/
def gas_left (_output : List Nat) : Outcome (List Nat) :=
  .panicked (.unimplementedPanic
    "not implemented: off-chain environment does not yet support `gas_left`")

/-- `ext::rent_allowance`. -/
def rent_allowance (_output : List Nat) : Outcome (List Nat) :=
  .panicked (.unimplementedPanic
    "not implemented: off-chain environment does not yet support `rent_allowance`")

/-- `ext::minimum_balance`. -/
def minimum_balance (_output : List Nat) : Outcome (List Nat) :=
  .panicked (.unimplementedPanic
    "not implemented: off-chain environment does not yet support `minimum_balance`")

/-- `ext::tombstone_deposit`. -/
def tombstone_deposit (_output : List Nat) : Outcome (List Nat) :=
  .panicked (.unimplementedPanic
    "not implemented: off-chain environment does not yet support `tombstone_deposit`")

/-- `ext::instantiate`. -/
def instantiate (_code_hash : List Nat) (_gas_limit : Nat)
    (_endowment _input _out_address _out_return_value _salt : List Nat) :
    Outcome Unit :=
  .panicked (.unimplementedPanic
    "not implemented: off-chain environment does not yet support `instantiate`")

/-- `ext::call`. -/
def call (_callee : List Nat) (_gas_limit : Nat)
    (_value _input _output : List Nat) : Outcome Unit :=
  .panicked (.unimplementedPanic
    "not implemented: off-chain environment does not yet support `call`")

/-- `ext::weight_to_fee`. -/
def weight_to_fee (_gas : Nat) (_output : List Nat) : Outcome (List Nat) :=
  .panicked (.unimplementedPanic
    "not implemented: off-chain environment does not yet support `weight_to_fee`")

/-- `ext::set_rent_allowance`. -/
def set_rent_allowance (_value : List Nat) : Outcome Unit :=
  .panicked (.unimplementedPanic
    "not implemented: off-chain environment does not yet support `set_rent_allowance`")

/-- `ext::random`. -/
def random (_subject _output : List Nat) : Outcome (List Nat) :=
  .panicked (.unimplementedPanic
    "not implemented: off-chain environment does not yet support `random`")

/-- `ext::call_chain_extension` (would return a raw `u32` status). -/
def call_chain_extension (_func_id : Nat) (_input _output : List Nat) :
    Outcome Nat :=
  .panicked (.unimplementedPanic
    "not implemented: off-chain environment does not yet support `call_chain_extension`")

/-- `ext::restore_to` (converts the filtered keys, then hits
`unimplemented!`). -/
def restore_to (_account_id _code_hash _rent_allowance : List Nat)
    (_filtered_keys : List (List Nat)) : Outcome Unit :=
  .panicked (.unimplementedPanic
    "not implemented: off-chain environment does not yet support `restore_to`")

/-! ## Typed marshalling backend
(`crates/env/src/engine/experimental_off_chain/impls.rs`) -/

/-- `TopicsBuilder::push_topic`, acting on the already-encoded topic value:
start from `Hash::clear()` (an all-zero buffer of the digest width
`len_result`); when the encoding fits, left-align it into the zero buffer;
otherwise BLAKE2b-256-hash the encoding and copy
`min (hash length) len_result` bytes. (The debug-only duplicate-topic
assertion is build-mode-dependent and not part of the value semantics.) -/
def push_topic (len_result : Nat) (encoded : List Nat) : List Nat :=
  let result := List.replicate len_result 0
  if encoded.length ≤ len_result then
    encoded ++ result.drop encoded.length
  else
    let hash_output := blake2b_256 encoded
    let copy_len := min hash_output.length len_result
    hash_output.take copy_len ++ result.drop copy_len

/-- `TopicsBuilder` state transition: pushing appends the built topic. -/
def push_topic_builder (topics : List (List Nat)) (len_result : Nat)
    (encoded : List Nat) : List (List Nat) :=
  topics ++ [push_topic len_result encoded]

/-- `TopicsBuilder::output`: the compact-encoded topic count followed by each
topic's fixed-width bytes concatenated in push order. -/
def topics_output (topics : List (List Nat)) : List Nat :=
  compactEncode topics.length ++ topics.flatten

/-- `crate::Error` of the env crate, as far as the typed storage path can
produce it: a mapped ABI error or a SCALE decoding failure. -/
inductive EnvError where
  | abi (e : Error)
  | decodeFailed
  deriving DecidableEq, Repr

/-- Outcome of a typed-backend call. -/
inductive TypedOutcome (α : Type) where
  | ok (value : α)
  | err (e : EnvError)
  | panicked (p : Panic)
  deriving DecidableEq, Repr

/-- The result-handling of `EnvBackend::get_contract_storage`, factored over
the byte-level result: `Ok` falls through to SCALE decoding of the output
buffer (a decode failure is returned as a typed error), `Err(KeyNotFound)`
becomes `Ok(None)`, and every other byte-level error hits the
`panic!("encountered unexpected error")` arm. -/
def get_contract_storage_from {α : Type} (dec : List Nat → Option α)
    (r : Outcome (List Nat)) : TypedOutcome (Option α) :=
  match r with
  | .panicked p => .panicked p
  | .err .KeyNotFound => .ok none
  | .err _ => .panicked (.runtimePanic "encountered unexpected error")
  | .ok buf =>
    match dec buf with
    | some v => .ok (some v)
    | none => .err .decodeFailed

/-- `EnvBackend::get_contract_storage`: calls the engine's `get_storage` with
a zeroed 9600-byte scratch buffer and post-processes the result. -/
def get_contract_storage {α : Type} (dec : List Nat → Option α) (e : Engine)
    (key : List Nat) : TypedOutcome (Option α) :=
  get_contract_storage_from dec (get_storage e key (List.replicate 9600 0)).2

/-! ## Concrete states and observations used by witnesses -/

/-- A fresh recorder. -/
def emptyRecorder : RecInstance :=
  { emitted_events := [], recorded_printlns := [],
    count_reads := fun _ => 0, count_writes := fun _ => 0,
    count_cells := fun _ => 0 }

/-- A fresh engine: empty storage, empty balance table, default context. -/
def emptyEngine : Engine :=
  { env :=
      { storage := fun _ => none, balances := fun _ => none,
        exec_context := { caller := [], callee := [], value_transferred := 0 } },
    recorder := emptyRecorder }

/-- The 32-byte account `[1; 32]` of the repository's tests. -/
def alice : List Nat :=
  List.replicate 32 1

/-- The 32-byte account `[2; 32]` of the repository's tests. -/
def bob : List Nat :=
  List.replicate 32 2

/-- The engine of the repository's `transfer` test: `alice` executing with
balance 1337. -/
def transferDemoEngine : Engine :=
  set_balance (set_callee emptyEngine alice) alice 1337

/-- `alice` executing with balance 10 (self-transfer counterexample). -/
def selfTransferEngine : Engine :=
  set_balance (set_callee emptyEngine alice) alice 10

/-- `alice` executing with the maximal `u128` balance (overflow
counterexample). -/
def maxBalanceEngine : Engine :=
  set_balance (set_callee emptyEngine alice) alice (2 ^ 128 - 1)

/-- `alice` executing, with the encoded value 99 stored at the one-byte key
`[7]` (typed-storage witness state). -/
def typedStorageEngine : Engine :=
  set_storage (set_callee emptyEngine alice) [7] (encodeU128 99)

/-- Decidable observation of a `transfer` result: the balances of two
accounts after a successful transfer. -/
def transferBalancesAfter (r : Except Error Engine) (a b : List Nat) :
    Option (Option Nat × Option Nat) :=
  match r with
  | .ok e => some (get_balance e a, get_balance e b)
  | .error _ => none

/-- Decidable observation of a `deposit_event` result: the recorded event
log after a successful deposit. -/
def eventsAfter (r : Outcome Engine) : Option (List EmittedEvent) :=
  match r with
  | .ok e => some e.recorder.emitted_events
  | .err _ => none
  | .panicked _ => none

end InkEngine

namespace InkEngine

/-! ## Supporting lemmas -/

theorem toLE_length (k n : Nat) : (toLE k n).length = k := by
  induction k generalizing n with
  | zero => rfl
  | succ k ih => simp [toLE, ih]

theorem fromLE_toLE (k n : Nat) : fromLE (toLE k n) = n % 256 ^ k := by
  induction k generalizing n with
  | zero => simp [toLE, fromLE, Nat.mod_one]
  | succ k ih =>
    have hpow : (256 : Nat) ^ (k + 1) = 256 * 256 ^ k := by ring
    simp only [toLE, fromLE, ih, hpow]
    rw [Nat.mod_mul]

/-- Decoding an encoded `u128` (with arbitrary trailing bytes) recovers the
value modulo `2 ^ 128`. -/
theorem decodeU128_encodeU128 (n : Nat) (rest : List Nat) :
    decodeU128 (encodeU128 n ++ rest) = some (n % 2 ^ 128) := by
  have hlen : (toLE 16 n).length = 16 := toLE_length 16 n
  have htake : ((toLE 16 n ++ rest).take 16) = toLE 16 n := by
    rw [← hlen]
    exact List.take_left _ _
  have h256 : (256 : Nat) ^ 16 = 2 ^ 128 := by norm_num
  simp [decodeU128, encodeU128, htake, hlen, fromLE_toLE, h256]

theorem mapSet_same {V : Type} (m : List Nat → Option V) (k : List Nat) (v : V) :
    mapSet m k v k = some v := by
  simp [mapSet]

theorem mapSet_other {V : Type} (m : List Nat → Option V) (k q : List Nat) (v : V)
    (h : q ≠ k) : mapSet m k v q = m q := by
  simp [mapSet, h]

theorem get_balance_set_balance_same (e : Engine) (a : List Nat) (v : Nat) :
    get_balance (set_balance e a v) a = some v := by
  simp [get_balance, set_balance, mapSet]

theorem get_balance_set_balance_other (e : Engine) (a q : List Nat) (v : Nat)
    (h : q ≠ a) : get_balance (set_balance e a v) q = get_balance e q := by
  simp [get_balance, set_balance, mapSet, h]

theorem decodeU128_encodeU128_self (n : Nat) :
    decodeU128 (encodeU128 n) = some (n % 2 ^ 128) := by
  have h := decodeU128_encodeU128 n []
  simpa using h

/-- Wrapping subtraction agrees with truncated subtraction when no underflow
occurs. -/
theorem sub128_of_le (x y : Nat) (hx : x < 2 ^ 128) (hyx : y ≤ x) :
    sub128 x y = x - y := by
  have hy : y < 2 ^ 128 := lt_of_le_of_lt hyx hx
  unfold sub128
  rw [Nat.mod_eq_of_lt hx, Nat.mod_eq_of_lt hy]
  have harith : x + (2 ^ 128 - y) = (x - y) + 2 ^ 128 := by omega
  rw [harith, Nat.add_mod_right, Nat.mod_eq_of_lt (by omega)]

theorem sub128_self (x : Nat) (hx : x < 2 ^ 128) : sub128 x x = 0 := by
  rw [sub128_of_le x x hx le_rfl, Nat.sub_self]

end InkEngine

/-- Claim C6 — For every 32-bit return code: code 0 converts to success;
codes 1 through 8 convert respectively to CalleeTrapped, CalleeReverted,
KeyNotFound, BelowSubsistenceThreshold, TransferFailed, NewContractNotFunded,
CodeNotFound, NotCallable; and every other non-zero code converts to the
generic unknown error kind. -/
theorem c6_return_code_table :
    InkEngine.resultFromReturnCode 0 = .ok () ∧
    InkEngine.resultFromReturnCode 1 = .error .CalleeTrapped ∧
    InkEngine.resultFromReturnCode 2 = .error .CalleeReverted ∧
    InkEngine.resultFromReturnCode 3 = .error .KeyNotFound ∧
    InkEngine.resultFromReturnCode 4 = .error .BelowSubsistenceThreshold ∧
    InkEngine.resultFromReturnCode 5 = .error .TransferFailed ∧
    InkEngine.resultFromReturnCode 6 = .error .NewContractNotFunded ∧
    InkEngine.resultFromReturnCode 7 = .error .CodeNotFound ∧
    InkEngine.resultFromReturnCode 8 = .error .NotCallable ∧
    ∀ code : Nat, 9 ≤ code → code < 2 ^ 32 →
      InkEngine.resultFromReturnCode code = .error .UnknownError := by
  refine ⟨rfl, rfl, rfl, rfl, rfl, rfl, rfl, rfl, rfl, ?_⟩
  intro code h9 _
  obtain ⟨m, rfl⟩ : ∃ m, code = m + 9 := ⟨code - 9, by omega⟩
  rfl

/-- Witness for C6 at the concrete unmapped code 42. -/
theorem c6_return_code_table_witness :
    InkEngine.resultFromReturnCode 42 = .error .UnknownError :=
  c6_return_code_table.2.2.2.2.2.2.2.2.2 42 (by decide) (by decide)

/-- Claim C2 — For every key k and value v: after set_storage(k, v),
get_storage(k, output) succeeds and the first len(v) bytes of output equal v
exactly; after clear_storage(k), get_storage(k, output) fails with
KeyNotFound. -/
theorem c2_storage_roundtrip (e : InkEngine.Engine) (k v output : List Nat)
    (hlen : v.length ≤ output.length) :
    (InkEngine.get_storage (InkEngine.set_storage e k v) k output).2 =
      .ok (v ++ output.drop v.length) ∧
    (v ++ output.drop v.length).take v.length = v ∧
    ∀ e' : InkEngine.Engine,
      (InkEngine.get_storage (InkEngine.clear_storage e' k) k output).2 =
        .err .KeyNotFound := by
  refine ⟨?_, List.take_left v _, ?_⟩
  · simp [InkEngine.get_storage, InkEngine.set_storage, InkEngine.inc_reads,
      InkEngine.inc_writes, InkEngine.inc_cells_per_account,
      InkEngine.get_callee, InkEngine.mapSet, hlen]
  · intro e'
    simp [InkEngine.get_storage, InkEngine.clear_storage, InkEngine.inc_reads,
      InkEngine.inc_writes, InkEngine.dec_cells_per_account,
      InkEngine.get_callee, InkEngine.mapRemove]

/-- Witness for C2: the concrete scenario of the repository's
`store_load_clear` test (32-byte key `0x42…42`, value `[5,5,5,5,5]`). -/
theorem c2_storage_roundtrip_witness :
    (InkEngine.get_storage
        (InkEngine.set_storage InkEngine.emptyEngine (List.replicate 32 66)
          [5, 5, 5, 5, 5])
        (List.replicate 32 66) (List.replicate 16 0)).2 =
      .ok ([5, 5, 5, 5, 5] ++ (List.replicate 16 0).drop 5) ∧
    (InkEngine.get_storage
        (InkEngine.clear_storage InkEngine.emptyEngine (List.replicate 32 66))
        (List.replicate 32 66) (List.replicate 16 0)).2 =
      .err .KeyNotFound := by
  have h := c2_storage_roundtrip InkEngine.emptyEngine (List.replicate 32 66)
    [5, 5, 5, 5, 5] (List.replicate 16 0) (by decide)
  exact ⟨h.1, h.2.2 InkEngine.emptyEngine⟩

/-- Counterexample to C1 as stated: with `a = b` (the claim quantifies over
all accounts a and b, including equal ones), executing account `alice` with
balance 10, a self-transfer of 5 leaves the balance at 15 — the destination
credit overwrites the debit — not at the 10 − 5 = 5 a decrease by n would
give. -/
theorem c1_transfer_counterexample :
    InkEngine.transferBalancesAfter
        (InkEngine.transfer InkEngine.selfTransferEngine InkEngine.alice
          (InkEngine.encodeU128 5))
        InkEngine.alice InkEngine.alice = some (some 15, some 15) ∧
    (some 15 : Option Nat) ≠ some (10 - 5) := by
  constructor
  · decide
  · decide

/-- Claim C1 (amended) — For all distinct accounts a ≠ b and every amount n
with n ≤ balance(a), transfer(b, n) with a as the executing account decreases
balance(a) by exactly n and increases balance(b) by exactly n modulo 2^128
(by exactly n whenever the credit does not overflow a u128), so the sum of
the two balances is conserved modulo 2^128; the destination need not
pre-exist (it is treated as having zero balance) and a transfer of zero
succeeds and leaves both balances unchanged. -/
theorem c1_transfer_spec (e : InkEngine.Engine) (a b : List Nat)
    (n B bOld : Nat)
    (hcallee : InkEngine.get_callee e = a)
    (hbal : InkEngine.get_balance e a = some B)
    (hbOld : (InkEngine.get_balance e b).getD 0 = bOld)
    (hB : B < 2 ^ 128) (hbO : bOld < 2 ^ 128) (hn : n ≤ B) (hab : a ≠ b) :
    ∃ e', InkEngine.transfer e b (InkEngine.encodeU128 n) = .ok e' ∧
      InkEngine.get_balance e' a = some (B - n) ∧
      InkEngine.get_balance e' b = some ((bOld + n) % 2 ^ 128) ∧
      (bOld + n < 2 ^ 128 → InkEngine.get_balance e' b = some (bOld + n)) ∧
      Nat.ModEq (2 ^ 128) ((B - n) + (bOld + n) % 2 ^ 128) (B + bOld) ∧
      (n = 0 → InkEngine.get_balance e' a = some B ∧
        InkEngine.get_balance e' b = some bOld) := by
  have hnlt : n < 2 ^ 128 := lt_of_le_of_lt hn hB
  have hdec : InkEngine.decodeU128 (InkEngine.encodeU128 n) = some n := by
    rw [InkEngine.decodeU128_encodeU128_self, Nat.mod_eq_of_lt hnlt]
  have htr : InkEngine.transfer e b (InkEngine.encodeU128 n) =
      .ok (InkEngine.set_balance
            (InkEngine.set_balance e a (InkEngine.sub128 B n)) b
            (InkEngine.add128 bOld n)) := by
    unfold InkEngine.transfer
    rw [hdec]
    simp only [hcallee, hbal, hbOld]
  refine ⟨_, htr, ?_, ?_, ?_, ?_, ?_⟩
  · rw [InkEngine.get_balance_set_balance_other _ _ _ _ hab,
      InkEngine.get_balance_set_balance_same,
      InkEngine.sub128_of_le B n hB hn]
  · rw [InkEngine.get_balance_set_balance_same]
    rfl
  · intro hlt
    rw [InkEngine.get_balance_set_balance_same]
    unfold InkEngine.add128
    rw [Nat.mod_eq_of_lt hlt]
  · calc (B - n) + (bOld + n) % 2 ^ 128
        ≡ (B - n) + (bOld + n) [MOD 2 ^ 128] :=
          Nat.ModEq.add_left _ (Nat.mod_modEq _ _)
      _ = B + bOld := by omega
  · intro hzero
    subst hzero
    constructor
    · rw [InkEngine.get_balance_set_balance_other _ _ _ _ hab,
        InkEngine.get_balance_set_balance_same,
        InkEngine.sub128_of_le B 0 hB (Nat.zero_le _), Nat.sub_zero]
    · rw [InkEngine.get_balance_set_balance_same]
      show some (InkEngine.add128 bOld 0) = some bOld
      unfold InkEngine.add128
      rw [Nat.add_zero, Nat.mod_eq_of_lt hbO]

/-- Witness for C1 (amended): the repository's `transfer` test — alice funded
with 1337, transfer of 337 to bob leaves balances 1000 and 337. -/
theorem c1_transfer_spec_witness :
    InkEngine.transferBalancesAfter
        (InkEngine.transfer InkEngine.transferDemoEngine InkEngine.bob
          (InkEngine.encodeU128 337))
        InkEngine.alice InkEngine.bob = some (some 1000, some 337) := by
  obtain ⟨e', hok, ha, hb, -, -, -⟩ :=
    c1_transfer_spec InkEngine.transferDemoEngine InkEngine.alice InkEngine.bob
      337 1337 0 (by decide) (by decide) (by decide) (by norm_num) (by norm_num)
      (by norm_num) (by decide)
  simp only [InkEngine.transferBalancesAfter, hok, ha, hb]
  norm_num

/-- Counterexample to C9 as stated: with the executing account at the maximal
u128 balance 2^128 − 1, a self-transfer of 1 wraps the credit to 0, not to
B + n = 2^128. -/
theorem c9_self_transfer_counterexample :
    InkEngine.transferBalancesAfter
        (InkEngine.transfer InkEngine.maxBalanceEngine InkEngine.alice
          (InkEngine.encodeU128 1))
        InkEngine.alice InkEngine.alice = some (some 0, some 0) ∧
    (some (0 : Nat)) ≠ some ((2 ^ 128 - 1) + 1) := by
  constructor
  · decide
  · decide

/-- Claim C9 (amended) — For every account a with an existing balance B and
every well-encoded amount n, calling transfer with destination equal to the
currently executing account itself (a self-transfer) leaves a's balance equal
to (B + n) mod 2^128 — equal to B + n whenever the credit does not overflow
a u128 — because the destination's old balance is read before the sender is
debited and the subsequent credit overwrites the debited value. -/
theorem c9_self_transfer_spec (e : InkEngine.Engine) (a : List Nat) (n B : Nat)
    (hcallee : InkEngine.get_callee e = a)
    (hbal : InkEngine.get_balance e a = some B)
    (_hB : B < 2 ^ 128) (hn : n < 2 ^ 128) :
    ∃ e', InkEngine.transfer e a (InkEngine.encodeU128 n) = .ok e' ∧
      InkEngine.get_balance e' a = some ((B + n) % 2 ^ 128) ∧
      (B + n < 2 ^ 128 → InkEngine.get_balance e' a = some (B + n)) := by
  have hdec : InkEngine.decodeU128 (InkEngine.encodeU128 n) = some n := by
    rw [InkEngine.decodeU128_encodeU128_self, Nat.mod_eq_of_lt hn]
  have hgetD : (InkEngine.get_balance e a).getD 0 = B := by rw [hbal]; rfl
  have htr : InkEngine.transfer e a (InkEngine.encodeU128 n) =
      .ok (InkEngine.set_balance
            (InkEngine.set_balance e a (InkEngine.sub128 B n)) a
            (InkEngine.add128 B n)) := by
    unfold InkEngine.transfer
    rw [hdec]
    simp only [hcallee, hbal, hgetD, Option.getD_some]
  refine ⟨_, htr, ?_, ?_⟩
  · rw [InkEngine.get_balance_set_balance_same]
    rfl
  · intro hlt
    rw [InkEngine.get_balance_set_balance_same]
    unfold InkEngine.add128
    rw [Nat.mod_eq_of_lt hlt]

/-- Witness for C9 (amended): alice executing with balance 10, self-transfer
of 5 leaves her balance at 15. -/
theorem c9_self_transfer_spec_witness :
    InkEngine.transferBalancesAfter
        (InkEngine.transfer InkEngine.selfTransferEngine InkEngine.alice
          (InkEngine.encodeU128 5))
        InkEngine.alice InkEngine.alice = some (some 15, some 15) := by
  obtain ⟨e', hok, -, hv⟩ :=
    c9_self_transfer_spec InkEngine.selfTransferEngine InkEngine.alice 5 10
      (by decide) (by decide) (by norm_num) (by norm_num)
  have h15 := hv (by norm_num)
  simp only [InkEngine.transferBalancesAfter, hok, h15]

/-- Claim C3 — terminate(beneficiary) never returns normally: it transfers
the entire current balance of the executing account to the beneficiary and
then ends the current emulated execution with a distinguished terminal
outcome carrying the transferred amount and the beneficiary, propagated to
the caller of the emulated execution rather than aborting the process. (The
return type of `terminate` has no normal-completion alternative: the outcome
is always a `Panic` value delivered to the caller; the deliberate terminal
panic carries the SCALE encoding of `(amount, beneficiary)`; for a
beneficiary distinct from the executing account, the executing account ends
at zero and the beneficiary receives the full amount.) -/
theorem c3_terminate_spec (e : InkEngine.Engine) (beneficiary : List Nat)
    (B : Nat)
    (hbal : InkEngine.get_balance e (InkEngine.get_callee e) = some B)
    (hB : B < 2 ^ 128) :
    (InkEngine.terminate e beneficiary).2 =
      .explicitPanic (InkEngine.encodeU128 B ++ InkEngine.encodeVecU8 beneficiary) ∧
    (beneficiary ≠ InkEngine.get_callee e →
      InkEngine.get_balance (InkEngine.terminate e beneficiary).1
          (InkEngine.get_callee e) = some 0 ∧
      InkEngine.get_balance (InkEngine.terminate e beneficiary).1 beneficiary =
        some (((InkEngine.get_balance e beneficiary).getD 0 + B) % 2 ^ 128)) := by
  have hdec : InkEngine.decodeU128 (InkEngine.encodeU128 B) = some B := by
    rw [InkEngine.decodeU128_encodeU128_self, Nat.mod_eq_of_lt hB]
  have htr : InkEngine.transfer e beneficiary (InkEngine.encodeU128 B) =
      .ok (InkEngine.set_balance
            (InkEngine.set_balance e (InkEngine.get_callee e)
              (InkEngine.sub128 B B)) beneficiary
            (InkEngine.add128 ((InkEngine.get_balance e beneficiary).getD 0) B)) := by
    unfold InkEngine.transfer
    rw [hdec]
    simp only [hbal]
  have hterm : InkEngine.terminate e beneficiary =
      (InkEngine.set_balance
          (InkEngine.set_balance e (InkEngine.get_callee e)
            (InkEngine.sub128 B B)) beneficiary
          (InkEngine.add128 ((InkEngine.get_balance e beneficiary).getD 0) B),
        .explicitPanic (InkEngine.encodeU128 B ++ InkEngine.encodeVecU8 beneficiary)) := by
    simp only [InkEngine.terminate, hbal, htr]
  refine ⟨by rw [hterm], fun hne => ⟨?_, ?_⟩⟩
  · rw [hterm]
    show InkEngine.get_balance _ _ = some 0
    rw [InkEngine.get_balance_set_balance_other _ _ _ _ (Ne.symm hne),
      InkEngine.get_balance_set_balance_same, InkEngine.sub128_self B hB]
  · rw [hterm]
    exact InkEngine.get_balance_set_balance_same _ _ _

/-- Witness for C3: alice executing with balance 1337, terminate to bob: the
terminal payload is the encoding of (1337, bob), alice ends at 0 and bob at
1337. -/
theorem c3_terminate_spec_witness :
    (InkEngine.terminate InkEngine.transferDemoEngine InkEngine.bob).2 =
      .explicitPanic
        (InkEngine.encodeU128 1337 ++ InkEngine.encodeVecU8 InkEngine.bob) ∧
    InkEngine.get_balance
        (InkEngine.terminate InkEngine.transferDemoEngine InkEngine.bob).1
        InkEngine.alice = some 0 ∧
    InkEngine.get_balance
        (InkEngine.terminate InkEngine.transferDemoEngine InkEngine.bob).1
        InkEngine.bob = some 1337 := by
  obtain ⟨hp, hbals⟩ :=
    c3_terminate_spec InkEngine.transferDemoEngine InkEngine.bob 1337
      (by decide) (by norm_num)
  obtain ⟨hc, hben⟩ := hbals (by decide)
  refine ⟨hp, ?_, ?_⟩
  · have hcallee : InkEngine.get_callee InkEngine.transferDemoEngine =
        InkEngine.alice := by decide
    rw [← hcallee]
    exact hc
  · have hb0 : (InkEngine.get_balance InkEngine.transferDemoEngine
        InkEngine.bob).getD 0 = 0 := by decide
    rw [hben, hb0]
    norm_num

/-- Claim C4 — For every unsupported host function (now, block_number,
gas_left, rent_allowance, minimum_balance, tombstone_deposit, instantiate,
call, weight_to_fee, set_rent_allowance, random, call_chain_extension,
restore_to) and every input, invoking it yields an explicit "unsupported"
error kind distinguishable from the ordinary ABI error table, never a
success result and never a process-level abort. (Each yields the
`unimplementedPanic` outcome carrying the function's "does not yet support"
message — a value propagated to the caller, distinct by construction from
every `ok` result and from every `err` of the ABI table.) -/
theorem c4_unsupported_host_functions :
    ((∀ out, InkEngine.now out = .panicked (.unimplementedPanic
        "not implemented: off-chain environment does not yet support `now`")) ∧
     (∀ out, InkEngine.block_number out = .panicked (.unimplementedPanic
        "not implemented: off-chain environment does not yet support `block_number`")) ∧
     (∀ out, InkEngine.gas_left out = .panicked (.unimplementedPanic
        "not implemented: off-chain environment does not yet support `gas_left`")) ∧
     (∀ out, InkEngine.rent_allowance out = .panicked (.unimplementedPanic
        "not implemented: off-chain environment does not yet support `rent_allowance`")) ∧
     (∀ out, InkEngine.minimum_balance out = .panicked (.unimplementedPanic
        "not implemented: off-chain environment does not yet support `minimum_balance`")) ∧
     (∀ out, InkEngine.tombstone_deposit out = .panicked (.unimplementedPanic
        "not implemented: off-chain environment does not yet support `tombstone_deposit`")) ∧
     (∀ ch gl ed inp oa orv salt, InkEngine.instantiate ch gl ed inp oa orv salt =
        .panicked (.unimplementedPanic
        "not implemented: off-chain environment does not yet support `instantiate`")) ∧
     (∀ callee gl v inp out, InkEngine.call callee gl v inp out =
        .panicked (.unimplementedPanic
        "not implemented: off-chain environment does not yet support `call`")) ∧
     (∀ gas out, InkEngine.weight_to_fee gas out = .panicked (.unimplementedPanic
        "not implemented: off-chain environment does not yet support `weight_to_fee`")) ∧
     (∀ v, InkEngine.set_rent_allowance v = .panicked (.unimplementedPanic
        "not implemented: off-chain environment does not yet support `set_rent_allowance`")) ∧
     (∀ subj out, InkEngine.random subj out = .panicked (.unimplementedPanic
        "not implemented: off-chain environment does not yet support `random`")) ∧
     (∀ fid inp out, InkEngine.call_chain_extension fid inp out =
        .panicked (.unimplementedPanic
        "not implemented: off-chain environment does not yet support `call_chain_extension`")) ∧
     (∀ aid ch ra fk, InkEngine.restore_to aid ch ra fk =
        .panicked (.unimplementedPanic
        "not implemented: off-chain environment does not yet support `restore_to`"))) ∧
    (∀ (α : Type) (o : InkEngine.Outcome α) (p : InkEngine.Panic),
      o = .panicked p →
        (∀ v, o ≠ .ok v) ∧ (∀ er : InkEngine.Error, o ≠ .err er)) := by
  constructor
  · simp [InkEngine.now, InkEngine.block_number, InkEngine.gas_left,
      InkEngine.rent_allowance, InkEngine.minimum_balance,
      InkEngine.tombstone_deposit, InkEngine.instantiate, InkEngine.call,
      InkEngine.weight_to_fee, InkEngine.set_rent_allowance, InkEngine.random,
      InkEngine.call_chain_extension, InkEngine.restore_to]
  · rintro α o p rfl
    constructor
    · intro v h
      cases h
    · intro er h
      cases h

/-- Witness for C4: the `unimplementedPanic` outcome of `now` on the empty
buffer is distinct from every success and from every ABI-table error. -/
theorem c4_unsupported_host_functions_witness :
    (∀ v, InkEngine.now [] ≠ .ok v) ∧
    (∀ er : InkEngine.Error, InkEngine.now [] ≠ .err er) :=
  c4_unsupported_host_functions.2 (List Nat) (InkEngine.now [])
    (.unimplementedPanic
      "not implemented: off-chain environment does not yet support `now`")
    (c4_unsupported_host_functions.1.1 [])

theorem chunksAux_nil (fuel k : Nat) : InkEngine.chunksAux fuel k [] = [] := by
  cases fuel <;> rfl

theorem chunksAux_flatten (k : Nat) (hk : 0 < k) :
    ∀ (fuel : Nat) (l : List Nat), l.length ≤ fuel →
      (InkEngine.chunksAux fuel k l).flatten = l := by
  intro fuel
  induction fuel with
  | zero =>
    intro l hl
    have hnil : l = [] := List.eq_nil_of_length_eq_zero (Nat.le_zero.mp hl)
    subst hnil
    rfl
  | succ fuel ih =>
    intro l hl
    cases l with
    | nil => rfl
    | cons x xs =>
      have hdroplen : ((x :: xs).drop k).length ≤ fuel := by
        simp only [List.length_drop, List.length_cons]
        simp only [List.length_cons] at hl
        omega
      show ((x :: xs).take k :: InkEngine.chunksAux fuel k ((x :: xs).drop k)).flatten
          = x :: xs
      rw [List.flatten_cons, ih _ hdroplen, List.take_append_drop]

theorem chunksAux_length_eq (k : Nat) (hk : 0 < k) :
    ∀ (fuel : Nat) (l : List Nat), l.length ≤ fuel →
      (InkEngine.chunksAux fuel k l).length = (l.length + k - 1) / k := by
  intro fuel
  induction fuel with
  | zero =>
    intro l hl
    have hnil : l = [] := List.eq_nil_of_length_eq_zero (Nat.le_zero.mp hl)
    subst hnil
    show (0 : Nat) = (0 + k - 1) / k
    rw [Nat.zero_add, Nat.div_eq_of_lt (by omega)]
  | succ fuel ih =>
    intro l hl
    cases l with
    | nil =>
      show (0 : Nat) = (0 + k - 1) / k
      rw [Nat.zero_add, Nat.div_eq_of_lt (by omega)]
    | cons x xs =>
      have hL : (x :: xs).length = xs.length + 1 := rfl
      have hdroplen : ((x :: xs).drop k).length ≤ fuel := by
        simp only [List.length_drop, List.length_cons]
        simp only [List.length_cons] at hl
        omega
      show (InkEngine.chunksAux fuel k ((x :: xs).drop k)).length + 1
          = ((x :: xs).length + k - 1) / k
      rw [ih _ hdroplen]
      simp only [List.length_drop, List.length_cons]
      have h1 : xs.length + 1 + k - 1 = xs.length + k := by omega
      rw [h1, Nat.add_div_right _ hk]
      rcases Nat.lt_or_ge (xs.length + 1) k with hlt | hge
      · have h2 : xs.length + 1 - k = 0 := by omega
        rw [h2]
        rw [Nat.zero_add, Nat.div_eq_of_lt (by omega),
          Nat.div_eq_of_lt (by omega)]
      · have h2 : xs.length + 1 - k + k - 1 = xs.length := by omega
        rw [h2]

theorem chunksAux_chunk_length (k : Nat) (hk : 0 < k) :
    ∀ (fuel : Nat) (l : List Nat), l.length ≤ fuel → k ∣ l.length →
      ∀ c ∈ InkEngine.chunksAux fuel k l, c.length = k := by
  intro fuel
  induction fuel with
  | zero =>
    intro l hl _ c hc
    have hnil : l = [] := List.eq_nil_of_length_eq_zero (Nat.le_zero.mp hl)
    subst hnil
    rw [chunksAux_nil] at hc
    simp at hc
  | succ fuel ih =>
    intro l hl hdvd c hc
    cases l with
    | nil =>
      rw [chunksAux_nil] at hc
      simp at hc
    | cons x xs =>
      have hkle : k ≤ (x :: xs).length :=
        Nat.le_of_dvd (by simp) hdvd
      have hdroplen : ((x :: xs).drop k).length ≤ fuel := by
        simp only [List.length_drop, List.length_cons]
        simp only [List.length_cons] at hl
        omega
      have hdvd' : k ∣ ((x :: xs).drop k).length := by
        rw [List.length_drop]
        exact Nat.dvd_sub' hdvd dvd_rfl
      have hc' : c = (x :: xs).take k ∨
          c ∈ InkEngine.chunksAux fuel k ((x :: xs).drop k) := by
        simpa [InkEngine.chunksAux] using hc
      rcases hc' with rfl | hmem
      · rw [List.length_take]
        omega
      · exact ih _ hdroplen hdvd' c hmem

theorem chunksOf_flatten (k : Nat) (hk : 0 < k) (l : List Nat) :
    (InkEngine.chunksOf k l).flatten = l :=
  chunksAux_flatten k hk l.length l le_rfl

theorem chunksOf_length_eq (k : Nat) (hk : 0 < k) (l : List Nat) :
    (InkEngine.chunksOf k l).length = (l.length + k - 1) / k :=
  chunksAux_length_eq k hk l.length l le_rfl

theorem chunksOf_chunk_length (k : Nat) (hk : 0 < k) (l : List Nat)
    (hdvd : k ∣ l.length) : ∀ c ∈ InkEngine.chunksOf k l, c.length = k :=
  chunksAux_chunk_length k hk l.length l le_rfl hdvd

theorem chunksOf_length_of_mul (count k : Nat) (hk : 0 < k) (l : List Nat)
    (hlen : l.length = count * k) : (InkEngine.chunksOf k l).length = count := by
  rw [chunksOf_length_eq k hk, hlen]
  have h1 : count * k + k - 1 = k * count + (k - 1) := by
    rw [Nat.mul_comm]
    omega
  rw [h1, Nat.mul_add_div hk, Nat.div_eq_of_lt (by omega), Nat.add_zero]

/-- Claim C5 — deposit_event decodes a leading compact-encoded topic count
from the topic buffer and partitions the remaining bytes into exactly that
many equal-size chunks (chunk size = remaining length divided by count);
input whose remaining length is not divisible by the count is rejected
rather than silently truncated (the event is never recorded — the call ends
in a panic); in particular, depositing an event with 2 topics of 2 bytes
each and data [21,22,23] records exactly one event whose 2 topics equal the
input chunks and whose data is [21,22,23] (see the witness). -/
theorem c5_deposit_event (e : InkEngine.Engine) (b : Nat)
    (rest data : List Nat) (count : Nat)
    (hb : InkEngine.compactDecodeOneByte b = some count) (hcount : 0 < count) :
    (∀ k : Nat, 0 < k → rest.length = count * k →
      ∃ e', InkEngine.deposit_event e (b :: rest) data = .ok e' ∧
        e'.recorder.emitted_events = e.recorder.emitted_events ++
          [{ topics := InkEngine.chunksOf k rest, data := data }] ∧
        (InkEngine.chunksOf k rest).length = count ∧
        (∀ c ∈ InkEngine.chunksOf k rest, c.length = k) ∧
        (InkEngine.chunksOf k rest).flatten = rest) ∧
    ((rest.length / count = 0 ∨ ¬ (count ∣ rest.length)) →
      ∃ p, InkEngine.deposit_event e (b :: rest) data = .panicked p) := by
  have hcne : ¬ count = 0 := Nat.pos_iff_ne_zero.mp hcount
  constructor
  · intro k hk hlen
    have hbpt : rest.length / count = k := by
      rw [hlen]
      exact Nat.mul_div_cancel_left k hcount
    have hkne : ¬ k = 0 := Nat.pos_iff_ne_zero.mp hk
    have hdvd : k ∣ rest.length := ⟨count, by rw [hlen, Nat.mul_comm]⟩
    have hlength : (InkEngine.chunksOf k rest).length = count :=
      chunksOf_length_of_mul count k hk rest hlen
    refine ⟨InkEngine.record_event e
        { topics := InkEngine.chunksOf k rest, data := data }, ?_, ?_,
      hlength, chunksOf_chunk_length k hk rest hdvd,
      chunksOf_flatten k hk rest⟩
    · simp only [InkEngine.deposit_event, hb, if_neg hcne, hbpt,
        if_neg hkne, if_pos hlength]
    · simp [InkEngine.record_event]
  · intro hrej
    by_cases hk0 : rest.length / count = 0
    · refine ⟨.runtimePanic "chunk size must be non-zero", ?_⟩
      simp [InkEngine.deposit_event, hb, if_neg hcne, hk0]
    · have hndvd : ¬ count ∣ rest.length := hrej.resolve_left hk0
      have hk : 0 < rest.length / count := Nat.pos_of_ne_zero hk0
      have hge : count * (rest.length / count) + 1 ≤ rest.length := by
        have hmod := Nat.div_add_mod rest.length count
        have hmodpos : rest.length % count ≠ 0 := fun h =>
          hndvd (Nat.dvd_of_mod_eq_zero h)
        omega
      have hlen_ne : ¬ (InkEngine.chunksOf (rest.length / count) rest).length
          = count := by
        rw [chunksOf_length_eq _ hk]
        set q := rest.length / count with hq
        set P := count * q with hP
        have expand : (count + 1) * q = P + q := by rw [hP]; ring
        have h1 : (count + 1) * q ≤ rest.length + q - 1 := by omega
        have h2 : count + 1 ≤ (rest.length + q - 1) / q :=
          (Nat.le_div_iff_mul_le hk).mpr h1
        omega
      refine ⟨.assertPanic "assertion failed: topics_count equals topics_vec.len", ?_⟩
      simp only [InkEngine.deposit_event, hb, if_neg hcne, if_neg hk0,
        if_neg hlen_ne]

/-- Witness for C5: the repository's `events` test — topic buffer
`compact(2) ++ [12,13] ++ [14,15]`, data `[21,22,23]` records exactly one
event with those two 2-byte topics and that data. -/
theorem c5_deposit_event_witness :
    InkEngine.eventsAfter
        (InkEngine.deposit_event InkEngine.emptyEngine
          (8 :: [12, 13, 14, 15]) [21, 22, 23]) =
      some [{ topics := [[12, 13], [14, 15]], data := [21, 22, 23] }] := by
  obtain ⟨e', hok, hev, -, -, -⟩ :=
    (c5_deposit_event InkEngine.emptyEngine 8 [12, 13, 14, 15] [21, 22, 23] 2
      (by decide) (by decide)).1 2 (by decide) (by decide)
  simp only [InkEngine.eventsAfter, hok, hev]
  decide

set_option maxRecDepth 10000 in
/-- Counterexample to C7 as stated: the hashed preimage is not the plain
concatenation of the namespace prefix and the account bytes —
`to_keyed_vec` SCALE-encodes the account vector, inserting a compact length
prefix between the two. At the concrete one-byte account `[1]`, the derived
key differs from the BLAKE2b-256 digest of `b"balance:" ++ [1]`. -/
theorem c7_balance_key_counterexample :
    InkEngine.balance_of_key [1] ≠
      InkEngine.blake2b_256 (InkEngine.BALANCE_OF ++ [1]) := by
  decide

/-- Claim C7 (amended) — The balance storage key is a pure deterministic
function of the account identifier:
balance_key(account) = Hash256(namespace_prefix ++ SCALE(account_bytes)),
where SCALE(v) = compact(len v) ++ v is the SCALE encoding of the account
byte vector (a compact length prefix between the fixed namespace prefix and
the bytes), and namespace_prefix is the fixed constant byte string
b"balance:" reserved for balances; consequently
balance_key(a) == balance_key(a) for every account a, and two byte-equal
accounts always derive the same 32-byte key. -/
theorem c7_balance_key_derivation :
    (∀ who : List Nat, InkEngine.balance_of_key who =
      InkEngine.blake2b_256
        (InkEngine.BALANCE_OF ++ (InkEngine.compactEncode who.length ++ who))) ∧
    (∀ a b : List Nat, a = b →
      InkEngine.balance_of_key a = InkEngine.balance_of_key b) := by
  constructor
  · intro who
    rfl
  · intro a b h
    rw [h]

/-- Witness for C7 (amended) at the concrete account `[1]`. -/
theorem c7_balance_key_derivation_witness :
    InkEngine.balance_of_key [1] =
      InkEngine.blake2b_256
        (InkEngine.BALANCE_OF ++ (InkEngine.compactEncode 1 ++ [1])) ∧
    InkEngine.balance_of_key [1] = InkEngine.balance_of_key [1] :=
  ⟨c7_balance_key_derivation.1 [1], c7_balance_key_derivation.2 [1] [1] rfl⟩

theorem flatMap_toLE8_length (h : List Nat) :
    (h.flatMap (InkEngine.toLE 8)).length = 8 * h.length := by
  induction h with
  | nil => rfl
  | cons x xs ih =>
    simp only [List.flatMap_cons, List.length_append, ih,
      InkEngine.toLE_length, List.length_cons]
    ring

theorem blake2bCompress_length (h m : List Nat) (t : Nat) (last : Bool) :
    (InkEngine.blake2bCompress h m t last).length = 8 := by
  simp [InkEngine.blake2bCompress]

theorem blake2b_length (outLen : Nat) (input : List Nat) (h : outLen ≤ 64) :
    (InkEngine.blake2b outLen input).length = outLen := by
  simp only [InkEngine.blake2b, List.length_take, flatMap_toLE8_length,
    blake2bCompress_length]
  omega

theorem blake2b_256_length (input : List Nat) :
    (InkEngine.blake2b_256 input).length = 32 :=
  blake2b_length 32 input (by norm_num)

theorem push_topic_builder_foldl (len_result : Nat) (encs : List (List Nat)) :
    ∀ acc : List (List Nat),
      List.foldl (fun acc enc => InkEngine.push_topic_builder acc len_result enc)
        acc encs = acc ++ encs.map (InkEngine.push_topic len_result) := by
  induction encs with
  | nil => intro acc; simp
  | cons x xs ih =>
    intro acc
    rw [List.foldl_cons, ih]
    simp [InkEngine.push_topic_builder]

/-- Claim C8 — For every topic value: if its encoding is at most the hash
digest width (32 bytes in the reference configuration), the built topic is
the encoded bytes left-aligned in a zero-padded buffer of exactly digest
width; if longer, the built topic is the BLAKE2b-256 hash of the encoded
bytes, digest width in size; this mapping is deterministic (the same value
always produces the same topic bytes), and the final topic buffer is
serialized as a compact-encoded count followed by each topic's fixed-width
bytes concatenated in push order. -/
theorem c8_topic_building (encoded : List Nat) (encs : List (List Nat)) :
    (encoded.length ≤ 32 →
      InkEngine.push_topic 32 encoded =
        encoded ++ List.replicate (32 - encoded.length) 0) ∧
    (32 < encoded.length →
      InkEngine.push_topic 32 encoded = InkEngine.blake2b_256 encoded) ∧
    (InkEngine.push_topic 32 encoded).length = 32 ∧
    (∀ encoded2, encoded = encoded2 →
      InkEngine.push_topic 32 encoded = InkEngine.push_topic 32 encoded2) ∧
    InkEngine.topics_output
        (List.foldl (fun acc enc => InkEngine.push_topic_builder acc 32 enc)
          [] encs) =
      InkEngine.compactEncode encs.length ++
        (encs.map (InkEngine.push_topic 32)).flatten := by
  have hshort : encoded.length ≤ 32 →
      InkEngine.push_topic 32 encoded =
        encoded ++ List.replicate (32 - encoded.length) 0 := by
    intro hle
    simp only [InkEngine.push_topic, if_pos hle, List.drop_replicate]
  have hlong : 32 < encoded.length →
      InkEngine.push_topic 32 encoded = InkEngine.blake2b_256 encoded := by
    intro hgt
    have hnle : ¬ encoded.length ≤ 32 := Nat.not_le.mpr hgt
    have hhl : (InkEngine.blake2b_256 encoded).length = 32 :=
      blake2b_256_length encoded
    simp only [InkEngine.push_topic, if_neg hnle, hhl, Nat.min_self,
      List.drop_replicate, Nat.sub_self, List.replicate_zero,
      List.append_nil]
    exact List.take_of_length_le (le_of_eq hhl)
  refine ⟨hshort, hlong, ?_, fun _ h => by rw [h], ?_⟩
  · rcases le_or_lt encoded.length 32 with hle | hgt
    · rw [hshort hle]
      simp only [List.length_append, List.length_replicate]
      omega
    · rw [hlong hgt]
      exact blake2b_256_length encoded
  · rw [push_topic_builder_foldl, List.nil_append,
      InkEngine.topics_output, List.length_map]

/-- Witness for C8: a 5-byte encoding is zero-padded to 32 bytes, and a
33-byte encoding is replaced by its BLAKE2b-256 digest. -/
theorem c8_topic_building_witness :
    InkEngine.push_topic 32 (List.replicate 5 7) =
      List.replicate 5 7 ++
        List.replicate (32 - (List.replicate 5 7).length) 0 ∧
    InkEngine.push_topic 32 (List.replicate 33 1) =
      InkEngine.blake2b_256 (List.replicate 33 1) :=
  ⟨(c8_topic_building (List.replicate 5 7) []).1 (by decide),
   (c8_topic_building (List.replicate 33 1) []).2.1 (by decide)⟩

theorem get_storage_snd_of_none (e : InkEngine.Engine) (key output : List Nat)
    (h : e.env.storage key = none) :
    (InkEngine.get_storage e key output).2 = .err .KeyNotFound := by
  simp [InkEngine.get_storage, InkEngine.inc_reads, h]

theorem get_storage_snd_of_some (e : InkEngine.Engine)
    (key output val : List Nat) (h : e.env.storage key = some val)
    (hle : val.length ≤ output.length) :
    (InkEngine.get_storage e key output).2 =
      .ok (val ++ output.drop val.length) := by
  simp [InkEngine.get_storage, InkEngine.inc_reads, h, hle]

/-- Claim C10 — The typed backend's get_contract_storage returns Ok(None),
not an error, when the key is absent (it maps the byte-level KeyNotFound
result to None); on a hit it returns Ok(Some(decoded value)) when decoding
succeeds (and a decode failure is returned as the typed decoding error); any
byte-level error other than KeyNotFound is treated as a programming-contract
violation that fails loudly (the `panic!("encountered unexpected error")`
arm) rather than being returned. -/
theorem c10_get_contract_storage {α : Type} (dec : List Nat → Option α)
    (e : InkEngine.Engine) (key : List Nat) :
    (e.env.storage key = none →
      InkEngine.get_contract_storage dec e key = .ok none) ∧
    (∀ val v, e.env.storage key = some val → val.length ≤ 9600 →
      dec (val ++ List.replicate (9600 - val.length) 0) = some v →
      InkEngine.get_contract_storage dec e key = .ok (some v)) ∧
    (∀ val, e.env.storage key = some val → val.length ≤ 9600 →
      dec (val ++ List.replicate (9600 - val.length) 0) = none →
      InkEngine.get_contract_storage dec e key = .err .decodeFailed) ∧
    (∀ er : InkEngine.Error, er ≠ .KeyNotFound →
      InkEngine.get_contract_storage_from dec (.err er) =
        (.panicked (.runtimePanic "encountered unexpected error") :
          InkEngine.TypedOutcome (Option α))) := by
  have hlenrep : (List.replicate 9600 (0 : Nat)).length = 9600 :=
    List.length_replicate 9600 0
  refine ⟨?_, ?_, ?_, ?_⟩
  · intro h
    rw [InkEngine.get_contract_storage, get_storage_snd_of_none _ _ _ h]
    rfl
  · intro val v hval hle hdec
    rw [InkEngine.get_contract_storage,
      get_storage_snd_of_some _ _ _ _ hval (by rw [hlenrep]; exact hle),
      List.drop_replicate]
    simp only [InkEngine.get_contract_storage_from, hdec]
  · intro val hval hle hdec
    rw [InkEngine.get_contract_storage,
      get_storage_snd_of_some _ _ _ _ hval (by rw [hlenrep]; exact hle),
      List.drop_replicate]
    simp only [InkEngine.get_contract_storage_from, hdec]
  · intro er her
    cases er <;> first | exact absurd rfl her | rfl

/-- Witness for C10: a stored 16-byte encoded u128 is decoded back from the
9600-byte scratch buffer; the absent-key case returns Ok(None). -/
theorem c10_get_contract_storage_witness :
    InkEngine.get_contract_storage InkEngine.decodeU128
        InkEngine.typedStorageEngine [7] = .ok (some 99) ∧
    InkEngine.get_contract_storage InkEngine.decodeU128
        InkEngine.typedStorageEngine [9] = .ok none := by
  constructor
  · refine (c10_get_contract_storage InkEngine.decodeU128
        InkEngine.typedStorageEngine [7]).2.1 (InkEngine.encodeU128 99) 99
      (by decide) (by decide) ?_
    rw [InkEngine.decodeU128_encodeU128]
    norm_num
  · exact (c10_get_contract_storage InkEngine.decodeU128
      InkEngine.typedStorageEngine [9]).1 (by decide)
